import Mathlib

/-!
Verification of the nicegraf C++ convenience wrappers
(`include/nicegraf_wrappers.h`): the move-only ownership wrapper
`ngf_handle`, the resource-bind-op encoders, the `cmd_bind_resources`
façade and the `streamed_uniform` ring allocator, shallowly embedded
as pure Lean functions.  Backend objects are identified by natural
numbers; a raw pointer is `Option Nat` (`none` is `nullptr`).
-/

/-- Modelled from the spec: backend error codes (`ngf_error` is declared in
`nicegraf.h`, which is not among the wrapper sources).  Only success versus
failure matters to the wrapper layer, so a single failure value is used. -/
inductive NgfError where
  | ok
  | failed
deriving DecidableEq, Repr

/-- The flag word passed to `ngf_uniform_buffer_map_range`:
`NGF_BUFFER_MAP_WRITE_BIT` and `NGF_BUFFER_MAP_DISCARD_BIT`,
modelled as two booleans. -/
structure MapFlags where
  write : Bool
  discard : Bool
deriving DecidableEq, Repr

/-- The `ngf_descriptor_type` values produced by the wrappers. -/
inductive DescriptorType where
  | texture
  | sampler
  | textureAndSampler
  | uniformBuffer
deriving DecidableEq, Repr

/-- The `uniform_buffer` member of the `ngf_resource_bind_op` info union. -/
structure UniformBufferBind where
  buffer : Option Nat
  offset : Nat
  range : Nat
deriving DecidableEq, Repr

/-- The `image_sampler` member of the `ngf_resource_bind_op` info union. -/
structure ImageSamplerBind where
  image : Option Nat
  sampler : Option Nat
deriving DecidableEq, Repr

/-- The info union of `ngf_resource_bind_op`, modelled as a tagged sum. -/
inductive BindInfo where
  | imageSampler (i : ImageSamplerBind)
  | uniformBuffer (u : UniformBufferBind)
deriving DecidableEq, Repr

/-- `ngf_resource_bind_op`. -/
structure ResourceBindOp where
  type : DescriptorType
  targetBinding : Nat
  targetSet : Nat
  info : BindInfo
deriving DecidableEq, Repr

/-- A raw backend object pointer: `none` is `nullptr`, `some x` is the object
with identity `x`. -/
abbrev RawPtr := Option Nat

/-- `ngf_handle::destroy_if_necessary`: if the stored pointer is non-null,
the backend destroy function is invoked on it (the pointer is appended to
`log`, the list of all destroy-call arguments) and the stored pointer is
nulled.  For an empty handle no backend call is made and the log is
untouched. -/
def destroyIfNecessary (handle : RawPtr) (log : List Nat) : RawPtr × List Nat :=
  match handle with
  | some x => (none, log ++ [x])
  | none => (handle, log)

/-- `ngf_handle::operator=(ngf_handle&&)` acting on two distinct handles
`(dst, src)`: first `destroy_if_necessary()` on the destination, then
`handle_ = other.handle_`, then `other.handle_ = nullptr`.  Returns the new
`(dst, src)` pair together with the destroy log. -/
def moveAssignPair (dst src : RawPtr) (log : List Nat) : RawPtr × RawPtr × List Nat :=
  let d := destroyIfNecessary dst log
  (src, none, d.2)

/-- Client-visible operations on a family of `ngf_handle`s.
`newHandle` default-constructs an empty handle.  `opInit i ok` models
`initialize` on handle `i`, where the backend create call succeeds iff `ok`
(on success the backend hands out a fresh object, on failure the handle is
left empty).  `reset i raw` models `reset`; `raw` must be null or a pointer
the client legitimately owns, i.e. one previously obtained from `release`
and not yet handed back (handing a live pointer owned elsewhere to a handle
is a caller contract violation, spec section 7).  `release i` relinquishes
handle `i`'s object to the client.  `moveAssign i j` is
`handles[i] = std::move(handles[j])`; `moveCtor j` move-constructs a fresh
handle from handle `j`; `destruct i` runs handle `i`'s destructor (the slot
behaves as an empty handle afterwards). -/
inductive HandleOp where
  | newHandle
  | opInit (i : Nat) (ok : Bool)
  | reset (i : Nat) (raw : Option Nat)
  | release (i : Nat)
  | moveAssign (i j : Nat)
  | moveCtor (j : Nat)
  | destruct (i : Nat)
deriving DecidableEq, Repr

/-- A family of `ngf_handle`s plus the surrounding world: the id supply used
by backend create calls, the pool of raw pointers the client holds after
`release`, and the log of every pointer ever passed to backend destroy. -/
structure HandleSys where
  handles : List RawPtr
  nextId : Nat
  pool : List Nat
  destroyLog : List Nat
deriving DecidableEq, Repr

/-- One step of the handle system.  Out-of-range handle indices and `reset`
with a pointer the client does not own are no-ops (such calls have no C++
counterpart).  Each arm transcribes the corresponding member function of
`ngf_handle`. -/
def step (s : HandleSys) : HandleOp → HandleSys
  | HandleOp.newHandle => { s with handles := s.handles ++ [none] }
  | HandleOp.opInit i ok =>
      if i < s.handles.length then
        let d := destroyIfNecessary (s.handles.getD i none) s.destroyLog
        if ok then
          { s with
              handles := s.handles.set i (some s.nextId),
              nextId := s.nextId + 1,
              destroyLog := d.2 }
        else
          { s with handles := s.handles.set i none, destroyLog := d.2 }
      else s
  | HandleOp.reset i none =>
      if i < s.handles.length then
        let d := destroyIfNecessary (s.handles.getD i none) s.destroyLog
        { s with handles := s.handles.set i none, destroyLog := d.2 }
      else s
  | HandleOp.reset i (some x) =>
      if i < s.handles.length ∧ x ∈ s.pool then
        let d := destroyIfNecessary (s.handles.getD i none) s.destroyLog
        { s with
            handles := s.handles.set i (some x),
            pool := s.pool.erase x,
            destroyLog := d.2 }
      else s
  | HandleOp.release i =>
      if i < s.handles.length then
        match s.handles.getD i none with
        | some x => { s with handles := s.handles.set i none, pool := s.pool ++ [x] }
        | none => s
      else s
  | HandleOp.moveAssign i j =>
      if i < s.handles.length ∧ j < s.handles.length then
        let d := destroyIfNecessary (s.handles.getD i none) s.destroyLog
        let v := if i = j then none else s.handles.getD j none
        { s with handles := (s.handles.set i v).set j none, destroyLog := d.2 }
      else s
  | HandleOp.moveCtor j =>
      if j < s.handles.length then
        { s with handles := (s.handles.set j none) ++ [s.handles.getD j none] }
      else s
  | HandleOp.destruct i =>
      if i < s.handles.length then
        let d := destroyIfNecessary (s.handles.getD i none) s.destroyLog
        { s with handles := s.handles.set i none, destroyLog := d.2 }
      else s

/-- The initial system: `n` default-constructed (empty) handles, no objects
created, released or destroyed yet. -/
def initSys (n : Nat) : HandleSys :=
  { handles := List.replicate n none, nextId := 0, pool := [], destroyLog := [] }

/-- Run a sequence of handle operations from the initial system. -/
def runSys (n : Nat) (ops : List HandleOp) : HandleSys :=
  List.foldl step (initSys n) ops

/-- Run every remaining handle's destructor in order, extending the destroy
log (scope exit of the whole family). -/
def destructList : List RawPtr → List Nat → List Nat
  | [], log => log
  | h :: t, log => destructList t (destroyIfNecessary h log).2

/-- The object ids currently owned by some handle. -/
def ownedIds (s : HandleSys) : List Nat := s.handles.filterMap id

/-- A list of object ids regarded as a multiset. -/
def msOf (l : List Nat) : Multiset Nat := l

/-- Every created object is in exactly one place: owned by a handle,
held by the client after `release`, or destroyed. -/
def liveObjects (s : HandleSys) : Multiset Nat :=
  msOf (ownedIds s) + msOf s.pool + msOf s.destroyLog

/-- The accounting invariant of the handle system: the owned, released and
destroyed objects together are exactly the created ones, each once. -/
def SysInv (s : HandleSys) : Prop :=
  liveObjects s = msOf (List.range s.nextId)

/-- The slot size computed in the `streamed_uniform<T>` constructor:
`sizeof(T) + (256u - sizeof(T) % 256u)` (with `sz` for `sizeof(T)`). -/
def alignedSizeFn (sz : Nat) : Nat := sz + (256 - sz % 256)

/-- State of a `streamed_uniform<T>`, with `payloadSize = sizeof(T)`.
`buf` is the raw uniform-buffer object held by the owned handle `buf_`;
`bufSize` is the size the constructor requested for it. -/
structure StreamedUniform where
  payloadSize : Nat
  buf : Option Nat
  bufSize : Nat
  frame : Nat
  currentOffset : Nat
  nframes : Nat
  alignedSize : Nat
deriving DecidableEq, Repr

/-- The `streamed_uniform` constructor.  `backend` is the outcome of its
`ngf_create_uniform_buffer2` call: the error code the backend returned and
the pointer it stored through the out-parameter (`none` when no buffer was
produced).  The source ignores the returned error code entirely and stores
the pointer unconditionally via `buf_.reset(buf)`; the requested buffer size
is `aligned_size_ * nframes` with host-readable/writeable storage. -/
def streamedUniformCtor (sz nframes : Nat) (backend : NgfError × Option Nat) :
    StreamedUniform :=
  { payloadSize := sz,
    buf := backend.2,
    bufSize := alignedSizeFn sz * nframes,
    frame := 0,
    currentOffset := 0,
    nframes := nframes,
    alignedSize := alignedSizeFn sz }

/-- Construction whose backend create call succeeded, producing object `0`. -/
def streamedUniformInit (sz nframes : Nat) : StreamedUniform :=
  streamedUniformCtor sz nframes (NgfError.ok, some 0)

/-- Modelled from the spec: the results the backend reports for the three
calls made inside `write` — `ngf_uniform_buffer_map_range` (whose result is
the host pointer, null on failure), `ngf_uniform_buffer_flush_range` and
`ngf_uniform_buffer_unmap`.  These functions are declared in `nicegraf.h`,
which is not among the wrapper sources. -/
structure BackendWriteResponses where
  mapResult : Option Nat
  flushResult : NgfError
  unmapResult : NgfError
deriving DecidableEq, Repr

/-- The map-flag computation in `write`: the discard bit is requested exactly
when the freshly computed offset is zero; the write bit is always set. -/
def mapFlagsFor (offset : Nat) : MapFlags :=
  if offset = 0 then ⟨true, true⟩ else ⟨true, false⟩

/-- The backend interaction one `write` call performs: one map, one memcpy,
one flush, one unmap.  `copyDst` is the pointer handed to `memcpy`
(the raw result of the map call, used unchecked). -/
structure WriteTrace where
  mapOffset : Nat
  mapSize : Nat
  mapFlags : MapFlags
  copyDst : Option Nat
  copyLen : Nat
  flushOffset : Nat
  flushSize : Nat
deriving DecidableEq, Repr

/-- `streamed_uniform::write`, with the backend's responses `r` passed in
explicitly.  Mirroring the source line by line: it sets
`current_offset_ = frame_ * aligned_size_`, computes the map flags from that
new offset, maps `[current_offset_, current_offset_ + aligned_size_)`,
copies `sizeof(T)` bytes to the mapped pointer, flushes the same range,
unmaps, and finally advances `frame_ = (frame_ + 1u) % nframes_`.
The C++ function returns `void` and never inspects any backend result. -/
def streamedWriteB (s : StreamedUniform) (r : BackendWriteResponses) :
    StreamedUniform × WriteTrace :=
  let off := s.frame * s.alignedSize
  ({ s with currentOffset := off, frame := (s.frame + 1) % s.nframes },
   { mapOffset := off,
     mapSize := s.alignedSize,
     mapFlags := mapFlagsFor off,
     copyDst := r.mapResult,
     copyLen := s.payloadSize,
     flushOffset := off,
     flushSize := s.alignedSize })

/-- `write` under an all-success backend. -/
def streamedWrite (s : StreamedUniform) : StreamedUniform × WriteTrace :=
  streamedWriteB s ⟨some 0, NgfError.ok, NgfError.ok⟩

/-- `k` consecutive `write` calls. -/
def streamedWriteK (s : StreamedUniform) : Nat → StreamedUniform
  | 0 => s
  | k + 1 => (streamedWrite (streamedWriteK s k)).1

/-- `streamed_uniform::bind_op_at_current_offset`: a pure encoder, it reads
the allocator state and returns a bind op without modifying anything. -/
def bindOpAtCurrentOffset (s : StreamedUniform) (set binding : Nat) :
    ResourceBindOp :=
  { type := DescriptorType.uniformBuffer,
    targetBinding := binding,
    targetSet := set,
    info := BindInfo.uniformBuffer ⟨s.buf, s.currentOffset, s.alignedSize⟩ }

/-- Modelled from the spec: `ngf_cmd_bind_resources` (declared in
`nicegraf.h`, not among the wrapper sources) receives the bind-op array and
its count and forwards them to the active backend; the command buffer
records the forwarded ops, an empty sequence is a legal no-op and the call
reports success. -/
def ngf_cmd_bind_resources (buf : List ResourceBindOp)
    (ops : List ResourceBindOp) (count : Nat) :
    List ResourceBindOp × NgfError :=
  (buf ++ ops.take count, NgfError.ok)

/-- The variadic façade `ngf::cmd_bind_resources`: it collects its arguments
into the local array `ops` and forwards that array together with
`sizeof(ops)/sizeof(ngf_resource_bind_op)`, i.e. its length. -/
def cmd_bind_resources (buf : List ResourceBindOp)
    (args : List ResourceBindOp) : List ResourceBindOp × NgfError :=
  ngf_cmd_bind_resources buf args args.length

lemma msOf_append (a b : List Nat) : msOf (a ++ b) = msOf a + msOf b := rfl

lemma filterMap_id_cons (a : Option Nat) (l : List (Option Nat)) :
    List.filterMap id (a :: l) = a.toList ++ List.filterMap id l := by
  cases a <;> rfl

lemma destroyIfNecessary_snd (h : RawPtr) (log : List Nat) :
    (destroyIfNecessary h log).2 = log ++ h.toList := by
  cases h <;> simp [destroyIfNecessary]

lemma filterMap_set_ms (l : List (Option Nat)) (i : Nat) (v : Option Nat)
    (h : i < l.length) :
    msOf ((l.set i v).filterMap id) + msOf (l.getD i none).toList
      = msOf (l.filterMap id) + msOf v.toList := by
  induction l generalizing i with
  | nil => simp at h
  | cons a t ih =>
    cases i with
    | zero =>
      rw [show (a :: t).set 0 v = v :: t from rfl,
          show (a :: t).getD 0 none = a from rfl,
          filterMap_id_cons, filterMap_id_cons, msOf_append, msOf_append]
      abel
    | succ i =>
      have h' : i < t.length := by simpa using h
      rw [show (a :: t).set (i + 1) v = a :: t.set i v from rfl,
          show (a :: t).getD (i + 1) none = t.getD i none from rfl,
          filterMap_id_cons, filterMap_id_cons, msOf_append, msOf_append]
      have hih := ih i h'
      calc msOf a.toList + msOf ((t.set i v).filterMap id) + msOf (t.getD i none).toList
          = msOf a.toList + (msOf ((t.set i v).filterMap id) + msOf (t.getD i none).toList) := by
            abel
        _ = msOf a.toList + (msOf (t.filterMap id) + msOf v.toList) := by rw [hih]
        _ = msOf a.toList + msOf (t.filterMap id) + msOf v.toList := by abel

lemma getD_set_ne (l : List (Option Nat)) (i j : Nat) (v : Option Nat)
    (h : i ≠ j) : (l.set i v).getD j none = l.getD j none := by
  induction l generalizing i j with
  | nil => rfl
  | cons a t ih =>
    cases i with
    | zero =>
      cases j with
      | zero => exact absurd rfl h
      | succ j => rfl
    | succ i =>
      cases j with
      | zero => rfl
      | succ j =>
        show (t.set i v).getD j none = t.getD j none
        exact ih i j (fun hh => h (by rw [hh]))

lemma msOf_erase (l : List Nat) (x : Nat) (hx : x ∈ l) :
    msOf [x] + msOf (l.erase x) = msOf l := by
  have hm : x ∈ (l : Multiset Nat) := by simpa using hx
  calc msOf [x] + msOf (l.erase x)
      = ({x} : Multiset Nat) + Multiset.erase (l : Multiset Nat) x := by
        rw [show msOf (l.erase x) = Multiset.erase (l : Multiset Nat) x from
              (Multiset.coe_erase l x).symm]
        rfl
    _ = x ::ₘ Multiset.erase (l : Multiset Nat) x := Multiset.singleton_add x _
    _ = msOf l := Multiset.cons_erase hm


lemma sysInv_step (s : HandleSys) (op : HandleOp) (h : SysInv s) :
    SysInv (step s op) := by
  have hEq : msOf (s.handles.filterMap id) + msOf s.pool + msOf s.destroyLog
      = msOf (List.range s.nextId) := h
  cases op with
  | newHandle =>
    simp only [step]
    show msOf ((s.handles ++ [(none : RawPtr)]).filterMap id) + msOf s.pool
        + msOf s.destroyLog = msOf (List.range s.nextId)
    have hfm : (s.handles ++ [(none : RawPtr)]).filterMap id
        = s.handles.filterMap id := by simp
    rw [hfm]
    exact hEq
  | opInit i ok =>
    cases ok with
    | true =>
      by_cases hi : i < s.handles.length
      · have key := filterMap_set_ms s.handles i (some s.nextId) hi
        rw [show Option.toList (some s.nextId) = [s.nextId] from rfl] at key
        simp only [step]
        rw [if_pos hi]
        show msOf ((s.handles.set i (some s.nextId)).filterMap id) + msOf s.pool
            + msOf ((destroyIfNecessary (s.handles.getD i none) s.destroyLog).2)
          = msOf (List.range (s.nextId + 1))
        rw [destroyIfNecessary_snd, msOf_append, List.range_succ s.nextId, msOf_append]
        calc msOf ((s.handles.set i (some s.nextId)).filterMap id) + msOf s.pool
              + (msOf s.destroyLog + msOf (s.handles.getD i none).toList)
            = (msOf ((s.handles.set i (some s.nextId)).filterMap id)
                + msOf (s.handles.getD i none).toList)
                + msOf s.pool + msOf s.destroyLog := by abel
          _ = (msOf (s.handles.filterMap id) + msOf [s.nextId])
                + msOf s.pool + msOf s.destroyLog := by rw [key]
          _ = (msOf (s.handles.filterMap id) + msOf s.pool + msOf s.destroyLog)
                + msOf [s.nextId] := by abel
          _ = msOf (List.range s.nextId) + msOf [s.nextId] := by rw [hEq]
      · simp only [step]; rw [if_neg hi]; exact h
    | false =>
      by_cases hi : i < s.handles.length
      · have key := filterMap_set_ms s.handles i none hi
        simp only [step]
        rw [if_pos hi]
        show msOf ((s.handles.set i none).filterMap id) + msOf s.pool
            + msOf ((destroyIfNecessary (s.handles.getD i none) s.destroyLog).2)
          = msOf (List.range s.nextId)
        rw [destroyIfNecessary_snd, msOf_append]
        calc msOf ((s.handles.set i none).filterMap id) + msOf s.pool
              + (msOf s.destroyLog + msOf (s.handles.getD i none).toList)
            = (msOf ((s.handles.set i none).filterMap id)
                + msOf (s.handles.getD i none).toList)
                + msOf s.pool + msOf s.destroyLog := by abel
          _ = (msOf (s.handles.filterMap id) + msOf (Option.toList none))
                + msOf s.pool + msOf s.destroyLog := by rw [key]
          _ = msOf (s.handles.filterMap id) + msOf s.pool + msOf s.destroyLog := by
              simp [msOf]
          _ = msOf (List.range s.nextId) := hEq
      · simp only [step]; rw [if_neg hi]; exact h
  | reset i raw =>
    cases raw with
    | none =>
      by_cases hi : i < s.handles.length
      · have key := filterMap_set_ms s.handles i none hi
        simp only [step]
        rw [if_pos hi]
        show msOf ((s.handles.set i none).filterMap id) + msOf s.pool
            + msOf ((destroyIfNecessary (s.handles.getD i none) s.destroyLog).2)
          = msOf (List.range s.nextId)
        rw [destroyIfNecessary_snd, msOf_append]
        calc msOf ((s.handles.set i none).filterMap id) + msOf s.pool
              + (msOf s.destroyLog + msOf (s.handles.getD i none).toList)
            = (msOf ((s.handles.set i none).filterMap id)
                + msOf (s.handles.getD i none).toList)
                + msOf s.pool + msOf s.destroyLog := by abel
          _ = (msOf (s.handles.filterMap id) + msOf (Option.toList none))
                + msOf s.pool + msOf s.destroyLog := by rw [key]
          _ = msOf (s.handles.filterMap id) + msOf s.pool + msOf s.destroyLog := by
              simp [msOf]
          _ = msOf (List.range s.nextId) := hEq
      · simp only [step]; rw [if_neg hi]; exact h
    | some x =>
      by_cases hg : i < s.handles.length ∧ x ∈ s.pool
      · have key := filterMap_set_ms s.handles i (some x) hg.1
        rw [show Option.toList (some x) = [x] from rfl] at key
        have hera := msOf_erase s.pool x hg.2
        simp only [step]
        rw [if_pos hg]
        show msOf ((s.handles.set i (some x)).filterMap id) + msOf (s.pool.erase x)
            + msOf ((destroyIfNecessary (s.handles.getD i none) s.destroyLog).2)
          = msOf (List.range s.nextId)
        rw [destroyIfNecessary_snd, msOf_append]
        calc msOf ((s.handles.set i (some x)).filterMap id) + msOf (s.pool.erase x)
              + (msOf s.destroyLog + msOf (s.handles.getD i none).toList)
            = (msOf ((s.handles.set i (some x)).filterMap id)
                + msOf (s.handles.getD i none).toList)
                + msOf (s.pool.erase x) + msOf s.destroyLog := by abel
          _ = (msOf (s.handles.filterMap id) + msOf [x])
                + msOf (s.pool.erase x) + msOf s.destroyLog := by rw [key]
          _ = msOf (s.handles.filterMap id) + (msOf [x] + msOf (s.pool.erase x))
                + msOf s.destroyLog := by abel
          _ = msOf (s.handles.filterMap id) + msOf s.pool + msOf s.destroyLog := by
              rw [hera]
          _ = msOf (List.range s.nextId) := hEq
      · simp only [step]; rw [if_neg hg]; exact h
  | release i =>
    by_cases hi : i < s.handles.length
    · cases hgd : s.handles.getD i none with
      | none =>
        simp only [step]
        rw [if_pos hi, hgd]
        exact h
      | some x =>
        have key := filterMap_set_ms s.handles i none hi
        rw [hgd] at key
        rw [show Option.toList (some x) = [x] from rfl] at key
        simp only [step]
        rw [if_pos hi, hgd]
        show msOf ((s.handles.set i none).filterMap id) + msOf (s.pool ++ [x])
            + msOf s.destroyLog = msOf (List.range s.nextId)
        rw [msOf_append]
        calc msOf ((s.handles.set i none).filterMap id) + (msOf s.pool + msOf [x])
              + msOf s.destroyLog
            = (msOf ((s.handles.set i none).filterMap id) + msOf [x])
                + msOf s.pool + msOf s.destroyLog := by abel
          _ = (msOf (s.handles.filterMap id) + msOf (Option.toList none))
                + msOf s.pool + msOf s.destroyLog := by rw [key]
          _ = msOf (s.handles.filterMap id) + msOf s.pool + msOf s.destroyLog := by
              simp [msOf]
          _ = msOf (List.range s.nextId) := hEq
    · simp only [step]; rw [if_neg hi]; exact h
  | moveAssign i j =>
    by_cases hij : i < s.handles.length ∧ j < s.handles.length
    · by_cases hv : i = j
      · have key : msOf ((s.handles.set j none).filterMap id)
              + msOf (s.handles.getD j none).toList
            = msOf (s.handles.filterMap id) + msOf (Option.toList none) := by
          subst hv
          exact filterMap_set_ms s.handles i none hij.1
        simp only [step]
        rw [if_pos hij, if_pos hv]
        subst hv
        rw [List.set_set]
        show msOf ((s.handles.set i none).filterMap id) + msOf s.pool
            + msOf ((destroyIfNecessary (s.handles.getD i none) s.destroyLog).2)
          = msOf (List.range s.nextId)
        rw [destroyIfNecessary_snd, msOf_append]
        calc msOf ((s.handles.set i none).filterMap id) + msOf s.pool
              + (msOf s.destroyLog + msOf (s.handles.getD i none).toList)
            = (msOf ((s.handles.set i none).filterMap id)
                + msOf (s.handles.getD i none).toList)
                + msOf s.pool + msOf s.destroyLog := by abel
          _ = (msOf (s.handles.filterMap id) + msOf (Option.toList none))
                + msOf s.pool + msOf s.destroyLog := by rw [key]
          _ = msOf (s.handles.filterMap id) + msOf s.pool + msOf s.destroyLog := by
              simp [msOf]
          _ = msOf (List.range s.nextId) := hEq
      · have key1 := filterMap_set_ms s.handles i (s.handles.getD j none) hij.1
        have hlen : j < (s.handles.set i (s.handles.getD j none)).length := by
          rw [List.length_set]; exact hij.2
        have key2 := filterMap_set_ms (s.handles.set i (s.handles.getD j none)) j none hlen
        rw [getD_set_ne s.handles i j (s.handles.getD j none) hv] at key2
        have key2' : msOf (((s.handles.set i (s.handles.getD j none)).set j none).filterMap id)
              + msOf (s.handles.getD j none).toList
            = msOf ((s.handles.set i (s.handles.getD j none)).filterMap id) := by
          simpa [msOf] using key2
        have comb : msOf (((s.handles.set i (s.handles.getD j none)).set j none).filterMap id)
              + msOf (s.handles.getD i none).toList
            = msOf (s.handles.filterMap id) := by
          have hcan : msOf (s.handles.getD j none).toList
                + (msOf (((s.handles.set i (s.handles.getD j none)).set j none).filterMap id)
                    + msOf (s.handles.getD i none).toList)
              = msOf (s.handles.getD j none).toList + msOf (s.handles.filterMap id) := by
            calc msOf (s.handles.getD j none).toList
                  + (msOf (((s.handles.set i (s.handles.getD j none)).set j none).filterMap id)
                      + msOf (s.handles.getD i none).toList)
                = (msOf (((s.handles.set i (s.handles.getD j none)).set j none).filterMap id)
                    + msOf (s.handles.getD j none).toList)
                    + msOf (s.handles.getD i none).toList := by abel
              _ = msOf ((s.handles.set i (s.handles.getD j none)).filterMap id)
                    + msOf (s.handles.getD i none).toList := by rw [key2']
              _ = msOf (s.handles.filterMap id) + msOf (s.handles.getD j none).toList := key1
              _ = msOf (s.handles.getD j none).toList + msOf (s.handles.filterMap id) := by abel
          exact add_left_cancel hcan
        simp only [step]
        rw [if_pos hij, if_neg hv]
        show msOf (((s.handles.set i (s.handles.getD j none)).set j none).filterMap id)
            + msOf s.pool
            + msOf ((destroyIfNecessary (s.handles.getD i none) s.destroyLog).2)
          = msOf (List.range s.nextId)
        rw [destroyIfNecessary_snd, msOf_append]
        calc msOf (((s.handles.set i (s.handles.getD j none)).set j none).filterMap id)
              + msOf s.pool
              + (msOf s.destroyLog + msOf (s.handles.getD i none).toList)
            = (msOf (((s.handles.set i (s.handles.getD j none)).set j none).filterMap id)
                + msOf (s.handles.getD i none).toList)
                + msOf s.pool + msOf s.destroyLog := by abel
          _ = msOf (s.handles.filterMap id) + msOf s.pool + msOf s.destroyLog := by rw [comb]
          _ = msOf (List.range s.nextId) := hEq
    · simp only [step]; rw [if_neg hij]; exact h
  | moveCtor j =>
    by_cases hj : j < s.handles.length
    · have key := filterMap_set_ms s.handles j none hj
      simp only [step]
      rw [if_pos hj]
      show msOf (((s.handles.set j none) ++ [s.handles.getD j none]).filterMap id)
          + msOf s.pool + msOf s.destroyLog = msOf (List.range s.nextId)
      rw [List.filterMap_append, msOf_append,
          show List.filterMap id [s.handles.getD j none]
              = (s.handles.getD j none).toList ++ List.filterMap id [] from
            filterMap_id_cons (s.handles.getD j none) [],
          show List.filterMap id ([] : List (Option Nat)) = [] from rfl,
          List.append_nil]
      calc msOf ((s.handles.set j none).filterMap id)
            + msOf (s.handles.getD j none).toList
            + msOf s.pool + msOf s.destroyLog
          = (msOf ((s.handles.set j none).filterMap id)
              + msOf (s.handles.getD j none).toList)
              + msOf s.pool + msOf s.destroyLog := by abel
        _ = (msOf (s.handles.filterMap id) + msOf (Option.toList none))
              + msOf s.pool + msOf s.destroyLog := by rw [key]
        _ = msOf (s.handles.filterMap id) + msOf s.pool + msOf s.destroyLog := by
            simp [msOf]
        _ = msOf (List.range s.nextId) := hEq
    · simp only [step]; rw [if_neg hj]; exact h
  | destruct i =>
    by_cases hi : i < s.handles.length
    · have key := filterMap_set_ms s.handles i none hi
      simp only [step]
      rw [if_pos hi]
      show msOf ((s.handles.set i none).filterMap id) + msOf s.pool
          + msOf ((destroyIfNecessary (s.handles.getD i none) s.destroyLog).2)
        = msOf (List.range s.nextId)
      rw [destroyIfNecessary_snd, msOf_append]
      calc msOf ((s.handles.set i none).filterMap id) + msOf s.pool
            + (msOf s.destroyLog + msOf (s.handles.getD i none).toList)
          = (msOf ((s.handles.set i none).filterMap id)
              + msOf (s.handles.getD i none).toList)
              + msOf s.pool + msOf s.destroyLog := by abel
        _ = (msOf (s.handles.filterMap id) + msOf (Option.toList none))
              + msOf s.pool + msOf s.destroyLog := by rw [key]
        _ = msOf (s.handles.filterMap id) + msOf s.pool + msOf s.destroyLog := by
            simp [msOf]
        _ = msOf (List.range s.nextId) := hEq
    · simp only [step]; rw [if_neg hi]; exact h

lemma filterMap_id_replicate_none (n : Nat) :
    List.filterMap id (List.replicate n (none : Option Nat)) = [] := by
  induction n with
  | zero => rfl
  | succ n ih =>
    rw [List.replicate_succ, filterMap_id_cons]
    simp [ih]

lemma sysInv_initSys (n : Nat) : SysInv (initSys n) := by
  show msOf (List.filterMap id (List.replicate n (none : Option Nat)))
      + msOf [] + msOf [] = msOf (List.range 0)
  rw [filterMap_id_replicate_none]
  rfl

lemma sysInv_run (ops : List HandleOp) :
    ∀ s : HandleSys, SysInv s → SysInv (List.foldl step s ops) := by
  induction ops with
  | nil => intro s h; exact h
  | cons op t ih => intro s h; exact ih (step s op) (sysInv_step s op h)

lemma destructList_eq (l : List RawPtr) :
    ∀ log : List Nat, destructList l log = log ++ l.filterMap id := by
  induction l with
  | nil => intro log; simp [destructList]
  | cons a t ih =>
    intro log
    rw [show destructList (a :: t) log
          = destructList t (destroyIfNecessary a log).2 from rfl,
        destroyIfNecessary_snd, ih, filterMap_id_cons, List.append_assoc]

lemma count_range (x n : Nat) : (List.range n).count x = if x < n then 1 else 0 := by
  induction n with
  | zero => simp
  | succ n ih =>
    rw [List.range_succ, List.count_append, ih]
    simp [List.count_cons]
    split_ifs <;> omega

lemma count_msOf (x : Nat) (l : List Nat) : Multiset.count x (msOf l) = l.count x :=
  Multiset.coe_count x l

lemma streamedWriteK_nframes (s : StreamedUniform) (k : Nat) :
    (streamedWriteK s k).nframes = s.nframes := by
  induction k with
  | zero => rfl
  | succ k ih =>
    show ((streamedWrite (streamedWriteK s k)).1).nframes = s.nframes
    rw [show ((streamedWrite (streamedWriteK s k)).1).nframes
          = (streamedWriteK s k).nframes from rfl, ih]

lemma streamedWriteK_alignedSize (s : StreamedUniform) (k : Nat) :
    (streamedWriteK s k).alignedSize = s.alignedSize := by
  induction k with
  | zero => rfl
  | succ k ih =>
    show ((streamedWrite (streamedWriteK s k)).1).alignedSize = s.alignedSize
    rw [show ((streamedWrite (streamedWriteK s k)).1).alignedSize
          = (streamedWriteK s k).alignedSize from rfl, ih]

lemma streamedWriteK_frame (sz N : Nat) (k : Nat) :
    (streamedWriteK (streamedUniformInit sz N) k).frame = k % N := by
  induction k with
  | zero => exact (Nat.zero_mod N).symm
  | succ k ih =>
    have hn := streamedWriteK_nframes (streamedUniformInit sz N) k
    calc (streamedWriteK (streamedUniformInit sz N) (k + 1)).frame
        = ((streamedWriteK (streamedUniformInit sz N) k).frame + 1)
            % (streamedWriteK (streamedUniformInit sz N) k).nframes := rfl
      _ = (k % N + 1) % N := by
          rw [ih, hn]
          rfl
      _ = (k + 1) % N := Nat.mod_add_mod k N 1

/-- C1: every `streamed_uniform::write` call requests the discard hint iff
the offset it computed for that call is zero (discard together with write
intent); for a non-zero offset only write intent is set; and the flag word
is a function of that offset alone, independent of the history of prior
calls. -/
theorem c1_discard_iff_zero_offset :
    (∀ s : StreamedUniform,
       ((streamedWrite s).2.mapFlags.discard = true ↔
          (streamedWrite s).2.mapOffset = 0)
       ∧ (streamedWrite s).2.mapFlags.write = true
       ∧ ((streamedWrite s).2.mapOffset ≠ 0 →
            (streamedWrite s).2.mapFlags = ⟨true, false⟩))
    ∧ ∀ s t : StreamedUniform,
        (streamedWrite s).2.mapOffset = (streamedWrite t).2.mapOffset →
          (streamedWrite s).2.mapFlags = (streamedWrite t).2.mapFlags := by
  constructor
  · intro s
    refine ⟨?_, ?_, ?_⟩
    · show (mapFlagsFor (s.frame * s.alignedSize)).discard = true ↔
          s.frame * s.alignedSize = 0
      unfold mapFlagsFor
      split_ifs with h0 <;> simp [h0]
    · show (mapFlagsFor (s.frame * s.alignedSize)).write = true
      unfold mapFlagsFor
      split_ifs <;> rfl
    · intro hne
      show mapFlagsFor (s.frame * s.alignedSize) = ⟨true, false⟩
      have hne' : s.frame * s.alignedSize ≠ 0 := hne
      unfold mapFlagsFor
      rw [if_neg hne']
  · intro s t hst
    show mapFlagsFor ((streamedWrite s).2.mapOffset)
        = mapFlagsFor ((streamedWrite t).2.mapOffset)
    rw [hst]

/-- C1 witness: on a fresh allocator (frame 0) the computed offset is 0 and
the discard bit is set. -/
theorem c1_witness :
    (streamedWrite (streamedUniformInit 68 3)).2.mapOffset = 0 ∧
      (streamedWrite (streamedUniformInit 68 3)).2.mapFlags.discard = true :=
  ⟨by decide,
   (c1_discard_iff_zero_offset.1 (streamedUniformInit 68 3)).1.mpr (by decide)⟩

/-- C2: for an allocator constructed with `N ≥ 1` frames, after `k ≥ 1`
`write` calls `current_offset_` equals `((k-1) mod N) * aligned_size_`;
equivalently each `write` advances the ring index by exactly one mod N. -/
theorem c2_ring_offset :
    (∀ sz N k : Nat, 1 ≤ N → 1 ≤ k →
       (streamedWriteK (streamedUniformInit sz N) k).currentOffset
         = ((k - 1) % N) * alignedSizeFn sz)
    ∧ ∀ s : StreamedUniform,
        (streamedWrite s).1.frame = (s.frame + 1) % s.nframes := by
  constructor
  · intro sz N k hN hk
    obtain ⟨m, rfl⟩ : ∃ m, k = m + 1 := ⟨k - 1, by omega⟩
    have hf := streamedWriteK_frame sz N m
    have ha := streamedWriteK_alignedSize (streamedUniformInit sz N) m
    calc (streamedWriteK (streamedUniformInit sz N) (m + 1)).currentOffset
        = (streamedWriteK (streamedUniformInit sz N) m).frame
            * (streamedWriteK (streamedUniformInit sz N) m).alignedSize := rfl
      _ = (m % N) * alignedSizeFn sz := by rw [hf, ha]; rfl
      _ = ((m + 1 - 1) % N) * alignedSizeFn sz := by simp
  · intro s
    rfl

/-- C2 witness: with `N = 3` and payload size 68, the fourth `write` wraps
back to offset 0 (`(4-1) mod 3 = 0`). -/
theorem c2_witness :
    1 ≤ 3 ∧ 1 ≤ 4 ∧
      (streamedWriteK (streamedUniformInit 68 3) 4).currentOffset
        = ((4 - 1) % 3) * alignedSizeFn 68 :=
  ⟨by decide, by decide, c2_ring_offset.1 68 3 4 (by decide) (by decide)⟩

/-- C3 counterexample: for `sizeof(T) = 256`, an exact multiple of the
alignment, the constructor computes slot size `256 + (256 - 0) = 512`,
whereas `ceil(256/256)*256 = 256`; so the claimed formula fails on exact
multiples of the alignment. -/
theorem c3_counterexample :
    (streamedUniformCtor 256 3 (NgfError.ok, some 0)).alignedSize = 512 ∧
      256 * ((256 + 255) / 256) = 256 := by decide

/-- C3 amended: the slot size is `sizeof(T) + (256 - sizeof(T) % 256)`,
which equals `ceil(sizeof(T)/256)*256` whenever `sizeof(T)` is not an exact
multiple of 256, but equals `sizeof(T) + 256` when it is; in every case the
slot size is at least `sizeof(T)` and is a multiple of 256. -/
theorem c3_aligned_slot_size :
    ∀ sz : Nat,
      alignedSizeFn sz = sz + (256 - sz % 256)
      ∧ sz ≤ alignedSizeFn sz
      ∧ alignedSizeFn sz % 256 = 0
      ∧ (∀ (n : Nat) (b : NgfError × Option Nat),
           (streamedUniformCtor sz n b).alignedSize = alignedSizeFn sz)
      ∧ (sz % 256 ≠ 0 → alignedSizeFn sz = 256 * ((sz + 255) / 256))
      ∧ (sz % 256 = 0 → alignedSizeFn sz = sz + 256) := by
  intro sz
  refine ⟨rfl, ?_, ?_, fun n b => rfl, ?_, ?_⟩ <;> unfold alignedSizeFn <;> omega

/-- C3 witness: payload size 68 gives slot size 256 (the rounded-up value),
payload size 256 gives 512. -/
theorem c3_witness :
    68 % 256 ≠ 0 ∧ alignedSizeFn 68 = 256 * ((68 + 255) / 256) ∧
      256 % 256 = 0 ∧ alignedSizeFn 256 = 256 + 256 :=
  ⟨by decide, (c3_aligned_slot_size 68).2.2.2.2.1 (by decide),
   by decide, (c3_aligned_slot_size 256).2.2.2.2.2 (by decide)⟩

/-- C4 counterexample: the constructor produces the identical allocator
whether the backend create call reported failure or success — the creation
error code is discarded, not propagated to the caller (the constructor has
no error output at all); on failure the stored buffer pointer is null. -/
theorem c4_counterexample :
    streamedUniformCtor 68 3 (NgfError.failed, none)
        = streamedUniformCtor 68 3 (NgfError.ok, none) ∧
      (streamedUniformCtor 68 3 (NgfError.failed, none)).buf = none :=
  ⟨rfl, rfl⟩

/-- C4 amended: the error code returned by `ngf_create_uniform_buffer2` is
ignored by the `streamed_uniform` constructor — the resulting allocator does
not depend on it and carries no error indication; the allocator is
constructed regardless, holding whatever (possibly null) buffer pointer the
backend produced. -/
theorem c4_error_discarded :
    ∀ (sz n : Nat) (e : NgfError) (b : Option Nat),
      streamedUniformCtor sz n (e, b) = streamedUniformCtor sz n (NgfError.ok, b)
      ∧ (streamedUniformCtor sz n (e, none)).buf = none :=
  fun _ _ _ _ => ⟨rfl, rfl⟩

/-- C5 counterexample: a `write` on which every backend call fails (map
returns null, flush and unmap report failure) leaves the allocator in
exactly the state of a fully successful `write`, and the null map result is
handed to `memcpy` unchecked — nothing is propagated to the caller (the C++
function returns `void`). -/
theorem c5_counterexample :
    (streamedWriteB (streamedUniformInit 68 3)
        ⟨none, NgfError.failed, NgfError.failed⟩).1
      = (streamedWriteB (streamedUniformInit 68 3)
          ⟨some 0, NgfError.ok, NgfError.ok⟩).1 ∧
    (streamedWriteB (streamedUniformInit 68 3)
        ⟨none, NgfError.failed, NgfError.failed⟩).2.copyDst = none := by decide

/-- C5 amended: backend failures during `write` are not propagated: the
resulting allocator state is independent of the backend's map/flush/unmap
results (and there is no status result to return), and the raw map result —
null on a failed map — is used as the `memcpy` destination unchecked. -/
theorem c5_write_ignores_backend_failures :
    ∀ (s : StreamedUniform) (r : BackendWriteResponses),
      (streamedWriteB s r).1 = (streamedWrite s).1
      ∧ (streamedWriteB s r).2.copyDst = r.mapResult :=
  fun _ _ => ⟨rfl, rfl⟩

/-- C6: over every finite sequence of handle operations (followed by running
the destructors of all remaining handles), each successfully created object
that was not relinquished by `release` is passed to the backend destroy
function exactly once, objects held by the client after `release` are never
destroyed, never-created ids never appear, and no destroy call is ever made
for an empty handle (second conjunct: an empty handle leaves the destroy log
untouched). -/
theorem c6_destroy_exactly_once :
    (∀ (n : Nat) (ops : List HandleOp) (x : Nat),
        (destructList (runSys n ops).handles (runSys n ops).destroyLog).count x
            + (runSys n ops).pool.count x
          = if x < (runSys n ops).nextId then 1 else 0)
    ∧ ∀ log : List Nat, destroyIfNecessary none log = (none, log) := by
  constructor
  · intro n ops x
    have hinv := sysInv_run ops (initSys n) (sysInv_initSys n)
    have hEq : msOf ((runSys n ops).handles.filterMap id) + msOf (runSys n ops).pool
        + msOf (runSys n ops).destroyLog
        = msOf (List.range (runSys n ops).nextId) := hinv
    have hc := congrArg (Multiset.count x) hEq
    rw [Multiset.count_add, Multiset.count_add, count_msOf, count_msOf, count_msOf,
        count_msOf, count_range] at hc
    rw [destructList_eq, List.count_append]
    split_ifs at hc ⊢ <;> omega
  · intro log
    rfl

/-- C7: move-assigning handle A into a distinct handle B destroys B's
previously owned object (it is what the operation appends to the destroy
log), leaves B owning A's prior object, leaves A empty, and a subsequent
destroy of the moved-from A is a no-op. -/
theorem c7_move_assign :
    ∀ (b a : RawPtr) (log : List Nat),
      (moveAssignPair b a log).1 = a
      ∧ (moveAssignPair b a log).2.1 = none
      ∧ (moveAssignPair b a log).2.2 = log ++ b.toList
      ∧ destroyIfNecessary (moveAssignPair b a log).2.1 (moveAssignPair b a log).2.2
          = ((moveAssignPair b a log).2.1, (moveAssignPair b a log).2.2) := by
  intro b a log
  cases b <;> simp [moveAssignPair, destroyIfNecessary]

/-- C8: `bind_op_at_current_offset(set, binding)` returns a uniform-buffer
bind op whose payload is the backing buffer, the stored `current_offset_`
(0 before any `write`, and the offset the most recent `write` produced
afterwards) and `aligned_size_`, with the given target set and binding; the
function is pure (it only reads the allocator state). -/
theorem c8_bind_op_fields :
    ∀ (s : StreamedUniform) (set binding : Nat),
      (bindOpAtCurrentOffset s set binding).type = DescriptorType.uniformBuffer
      ∧ (bindOpAtCurrentOffset s set binding).targetSet = set
      ∧ (bindOpAtCurrentOffset s set binding).targetBinding = binding
      ∧ (bindOpAtCurrentOffset s set binding).info
          = BindInfo.uniformBuffer ⟨s.buf, s.currentOffset, s.alignedSize⟩
      ∧ (∀ sz n : Nat, (streamedUniformInit sz n).currentOffset = 0)
      ∧ ∀ t : StreamedUniform,
          (bindOpAtCurrentOffset (streamedWrite t).1 set binding).info
            = BindInfo.uniformBuffer
                ⟨t.buf, (streamedWrite t).2.mapOffset, t.alignedSize⟩ :=
  fun _ _ _ => ⟨rfl, rfl, rfl, rfl, fun _ _ => rfl, fun _ => rfl⟩

/-- C9: submitting an empty bind-op sequence through the façade forwards an
empty array with count 0 to the backend bind call, leaves the command buffer
unchanged and reports success. -/
theorem c9_empty_bind_noop :
    ∀ buf : List ResourceBindOp,
      cmd_bind_resources buf [] = (buf, NgfError.ok) := by
  intro buf
  simp [cmd_bind_resources, ngf_cmd_bind_resources]

/-- C10: for `N ≥ 1` the ring index stays below `N` before and after every
`write`, so the byte range a `write` maps (and flushes) always lies inside
the backing buffer of size `aligned_size_ * N`; and the second conjunct
shows the precondition is necessary — with `N = 0` the very invariant
`frame < nframes` fails already in the initial state. -/
theorem c10_writes_stay_in_buffer :
    (∀ sz N k : Nat, 1 ≤ N →
       (streamedWriteK (streamedUniformInit sz N) k).frame < N
       ∧ (streamedWrite (streamedWriteK (streamedUniformInit sz N) k)).2.mapOffset
             + (streamedWrite (streamedWriteK (streamedUniformInit sz N) k)).2.mapSize
           ≤ (streamedUniformInit sz N).bufSize
       ∧ (streamedWrite (streamedWriteK (streamedUniformInit sz N) k)).2.flushOffset
             + (streamedWrite (streamedWriteK (streamedUniformInit sz N) k)).2.flushSize
           ≤ (streamedUniformInit sz N).bufSize
       ∧ (streamedUniformInit sz N).bufSize = alignedSizeFn sz * N)
    ∧ ¬ ((streamedUniformInit 68 0).frame < (streamedUniformInit 68 0).nframes) := by
  constructor
  · intro sz N k hN
    have hf := streamedWriteK_frame sz N k
    have ha := streamedWriteK_alignedSize (streamedUniformInit sz N) k
    have hlt : k % N < N := Nat.mod_lt k hN
    have hbound : k % N * alignedSizeFn sz + alignedSizeFn sz
        ≤ alignedSizeFn sz * N := by
      calc k % N * alignedSizeFn sz + alignedSizeFn sz
          = (k % N + 1) * alignedSizeFn sz := by ring
        _ ≤ N * alignedSizeFn sz := mul_le_mul_right' (by omega) (alignedSizeFn sz)
        _ = alignedSizeFn sz * N := Nat.mul_comm N (alignedSizeFn sz)
    refine ⟨by rw [hf]; exact hlt, ?_, ?_, rfl⟩
    · show (streamedWriteK (streamedUniformInit sz N) k).frame
            * (streamedWriteK (streamedUniformInit sz N) k).alignedSize
          + (streamedWriteK (streamedUniformInit sz N) k).alignedSize
        ≤ alignedSizeFn sz * N
      rw [hf, ha]
      exact hbound
    · show (streamedWriteK (streamedUniformInit sz N) k).frame
            * (streamedWriteK (streamedUniformInit sz N) k).alignedSize
          + (streamedWriteK (streamedUniformInit sz N) k).alignedSize
        ≤ alignedSizeFn sz * N
      rw [hf, ha]
      exact hbound
  · decide

/-- C10 witness: with `N = 3`, payload size 68, after 5 writes the frame is
below 3 and the sixth write's mapped range lies inside the backing buffer. -/
theorem c10_witness :
    1 ≤ 3 ∧
      (streamedWriteK (streamedUniformInit 68 3) 5).frame < 3 ∧
      (streamedWrite (streamedWriteK (streamedUniformInit 68 3) 5)).2.mapOffset
          + (streamedWrite (streamedWriteK (streamedUniformInit 68 3) 5)).2.mapSize
        ≤ (streamedUniformInit 68 3).bufSize :=
  ⟨by decide, (c10_writes_stay_in_buffer.1 68 3 5 (by decide)).1,
   (c10_writes_stay_in_buffer.1 68 3 5 (by decide)).2.1⟩
